import Mathlib

/-!
Verification of the automated answer-grading engine of the
Acad-Assessment-Test repository, against its natural-language specification.

Embedding conventions:
* Python `float` / `Decimal` values are modelled as exact rationals (`ℚ`).
* Python `round(x, 2)` and Django `DecimalField(decimal_places=2)` storage
  quantization both round half-to-even; both are modelled by `round2`.
* Python strings are Lean `String`s; `str.strip()` / `str.lower()` are
  modelled over the ASCII range (`pyStrip` / `pyLower`).
* spaCy document operations (vector similarity, lemma lookup, noun-chunk
  concept extraction, token counts) are opaque language-resource calls; they
  are modelled as an oracle record (`SpacyOracle`) of pure functions of the
  underlying text, reflecting that the loaded model is immutable shared state.
-/

namespace Acad

/-! ### Rounding to two decimal places (Python `round`, half-to-even) -/

/-- Round a rational to the nearest integer, ties to even
(the rounding used by Python's `round` and `decimal`'s default context). -/
def rhe (x : ℚ) : ℤ :=
  if x - ⌊x⌋ < 1/2 then ⌊x⌋
  else if 1/2 < x - ⌊x⌋ then ⌊x⌋ + 1
  else if 2 ∣ ⌊x⌋ then ⌊x⌋ else ⌊x⌋ + 1

/-- `round(x, 2)`: round to two decimal places, half to even. -/
def round2 (x : ℚ) : ℚ := (rhe (x * 100) : ℚ) / 100

theorem floor_le_rhe (x : ℚ) : ⌊x⌋ ≤ rhe x := by
  unfold rhe
  split
  · exact le_refl _
  · split
    · omega
    · split
      · exact le_refl _
      · omega

theorem rhe_le_ceil (x : ℚ) : rhe x ≤ ⌈x⌉ := by
  unfold rhe
  split
  · exact Int.floor_le_ceil x
  · rename_i h1
    have hx : (⌊x⌋ : ℚ) < x := by
      have : (1:ℚ)/2 ≤ x - ⌊x⌋ := le_of_not_lt h1
      linarith
    have hcast : (⌊x⌋ : ℚ) < (⌈x⌉ : ℚ) := lt_of_lt_of_le hx (Int.le_ceil x)
    have hfc : ⌊x⌋ < ⌈x⌉ := by exact_mod_cast hcast
    split
    · omega
    · split
      · omega
      · omega

theorem rhe_nonneg (x : ℚ) (h : 0 ≤ x) : 0 ≤ rhe x := by
  have h0 : 0 ≤ ⌊x⌋ := Int.floor_nonneg.mpr h
  exact le_trans h0 (floor_le_rhe x)

theorem round2_nonneg (x : ℚ) (h : 0 ≤ x) : 0 ≤ round2 x := by
  unfold round2
  have h1 : 0 ≤ rhe (x * 100) := rhe_nonneg _ (by positivity)
  have h2 : (0:ℚ) ≤ (rhe (x * 100) : ℚ) := by exact_mod_cast h1
  positivity

theorem round2_le_int (x : ℚ) (n : ℤ) (h : x ≤ (n : ℚ)) : round2 x ≤ (n : ℚ) := by
  unfold round2
  rw [div_le_iff₀ (by norm_num : (0:ℚ) < 100)]
  have h1 : rhe (x * 100) ≤ ⌈x * 100⌉ := rhe_le_ceil _
  have h2 : ⌈x * 100⌉ ≤ n * 100 := by
    apply Int.ceil_le.mpr
    push_cast
    nlinarith
  have h3 : rhe (x * 100) ≤ n * 100 := le_trans h1 h2
  calc ((rhe (x * 100) : ℤ) : ℚ) ≤ ((n * 100 : ℤ) : ℚ) := by exact_mod_cast h3
    _ = (n : ℚ) * 100 := by push_cast; ring

theorem round2_intCast (n : ℤ) : round2 (n : ℚ) = (n : ℚ) := by
  have h1 : round2 (n : ℚ) ≤ (n : ℚ) := round2_le_int _ n (le_refl _)
  have h2 : (n : ℚ) ≤ round2 (n : ℚ) := by
    unfold round2
    rw [le_div_iff₀ (by norm_num : (0:ℚ) < 100)]
    have hfl : ⌊(n : ℚ) * 100⌋ = n * 100 := by
      have : ((n * 100 : ℤ) : ℚ) = (n : ℚ) * 100 := by push_cast; ring
      rw [← this, Int.floor_intCast]
    have h3 : n * 100 ≤ rhe ((n : ℚ) * 100) := by
      rw [← hfl]; exact floor_le_rhe _
    calc (n : ℚ) * 100 = ((n * 100 : ℤ) : ℚ) := by push_cast; ring
      _ ≤ ((rhe ((n : ℚ) * 100) : ℤ) : ℚ) := by exact_mod_cast h3
  exact le_antisymm h1 h2

/-! ### Python string primitives (ASCII fragment) -/

theorem string_eq_iff_data (a b : String) : a = b ↔ a.data = b.data :=
  ⟨congrArg _, String.ext⟩

/-- The whitespace characters removed by Python's `str.strip()`
(ASCII range: space, tab, newline, vertical tab, form feed, carriage return). -/
def pyIsSpace (c : Char) : Bool :=
  decide (c.toNat = 32 ∨ c.toNat = 9 ∨ c.toNat = 10 ∨ c.toNat = 11 ∨
    c.toNat = 12 ∨ c.toNat = 13)

/-- List-level strip: drop leading and trailing whitespace characters. -/
def stripL (l : List Char) : List Char :=
  ((l.dropWhile pyIsSpace).reverse.dropWhile pyIsSpace).reverse

/-- Python `str.strip()`. -/
def pyStrip (s : String) : String := ⟨stripL s.data⟩

/-- Python `str.lower()` on the ASCII range (Lean core `Char.toLower`
is exactly ASCII lower-casing). -/
def pyLower (s : String) : String := ⟨s.data.map Char.toLower⟩

theorem charToNat_ofNat_add32 (m : ℕ) (h1 : 65 ≤ m) (h2 : m ≤ 90) :
    (Char.ofNat (m + 32)).toNat = m + 32 := by
  interval_cases m <;> decide

theorem toLower_of_not_upper (d : Char) (h : ¬(d.toNat ≥ 65 ∧ d.toNat ≤ 90)) :
    d.toLower = d := by
  simp only [Char.toLower]
  rw [if_neg h]

theorem toLower_toNat_of_upper (c : Char) (h : c.toNat ≥ 65 ∧ c.toNat ≤ 90) :
    c.toLower.toNat = c.toNat + 32 := by
  simp only [Char.toLower]
  rw [if_pos h]
  exact charToNat_ofNat_add32 c.toNat h.1 h.2

theorem toLower_toLower (c : Char) : c.toLower.toLower = c.toLower := by
  by_cases h : c.toNat ≥ 65 ∧ c.toNat ≤ 90
  · have hn := toLower_toNat_of_upper c h
    exact toLower_of_not_upper _ (by rw [hn]; omega)
  · rw [toLower_of_not_upper c h]
    exact toLower_of_not_upper c h

theorem pyIsSpace_toLower (c : Char) : pyIsSpace c.toLower = pyIsSpace c := by
  by_cases h : c.toNat ≥ 65 ∧ c.toNat ≤ 90
  · have hn := toLower_toNat_of_upper c h
    unfold pyIsSpace
    rw [hn, decide_eq_decide]
    omega
  · rw [toLower_of_not_upper c h]

theorem head?_dropWhile {α : Type} (p : α → Bool) (l : List α) :
    ∀ x, (l.dropWhile p).head? = some x → p x = false := by
  induction l with
  | nil => intro x h; simp at h
  | cons a l ih =>
    intro x h
    rw [List.dropWhile_cons] at h
    by_cases hp : p a = true
    · rw [if_pos hp] at h; exact ih x h
    · rw [if_neg hp] at h
      simp at h
      rw [← h]
      exact Bool.eq_false_iff.mpr hp

theorem dropWhile_eq_self {α : Type} (p : α → Bool) (l : List α)
    (h : ∀ x, l.head? = some x → p x = false) : l.dropWhile p = l := by
  cases l with
  | nil => rfl
  | cons a l =>
    rw [List.dropWhile_cons, if_neg]
    rw [h a rfl]
    simp

theorem getLast?_dropWhile {α : Type} (p : α → Bool) (l : List α)
    (h : l.dropWhile p ≠ []) : (l.dropWhile p).getLast? = l.getLast? := by
  induction l with
  | nil => simp at h
  | cons a l ih =>
    rw [List.dropWhile_cons]
    rw [List.dropWhile_cons] at h
    by_cases hp : p a = true
    · rw [if_pos hp] at h ⊢
      have hl : l ≠ [] := by
        intro he; rw [he] at h; simp at h
      rw [ih h, List.getLast?_cons]
      cases hgl : l.getLast? with
      | none => exact absurd (List.getLast?_eq_none_iff.mp hgl) hl
      | some b => simp
    · rw [if_neg hp]

theorem stripL_head (l : List Char) :
    ∀ x, (stripL l).head? = some x → pyIsSpace x = false := by
  intro x h
  unfold stripL at h
  rw [List.head?_reverse] at h
  have hne : (l.dropWhile pyIsSpace).reverse.dropWhile pyIsSpace ≠ [] := by
    intro he; rw [he] at h; simp at h
  rw [getLast?_dropWhile _ _ hne, List.getLast?_reverse] at h
  exact head?_dropWhile pyIsSpace l x h

theorem stripL_last (l : List Char) :
    ∀ x, (stripL l).getLast? = some x → pyIsSpace x = false := by
  intro x h
  unfold stripL at h
  rw [List.getLast?_reverse] at h
  exact head?_dropWhile pyIsSpace _ x h

theorem stripL_idem (l : List Char) : stripL (stripL l) = stripL l := by
  conv_lhs => rw [stripL]
  rw [dropWhile_eq_self pyIsSpace (stripL l) (stripL_head l)]
  rw [dropWhile_eq_self pyIsSpace (stripL l).reverse (by
    intro x h
    rw [List.head?_reverse] at h
    exact stripL_last l x h)]
  exact List.reverse_reverse _

theorem pyStrip_idem (s : String) : pyStrip (pyStrip s) = pyStrip s :=
  String.ext (stripL_idem s.data)

theorem stripL_map_toLower (l : List Char) :
    stripL (l.map Char.toLower) = (stripL l).map Char.toLower := by
  have hcomp : (pyIsSpace ∘ Char.toLower) = pyIsSpace := by
    funext c; exact pyIsSpace_toLower c
  unfold stripL
  rw [List.dropWhile_map, hcomp, ← List.map_reverse, List.dropWhile_map, hcomp,
    ← List.map_reverse]

theorem pyStrip_pyLower (s : String) : pyStrip (pyLower s) = pyLower (pyStrip s) :=
  String.ext (stripL_map_toLower s.data)

theorem pyLower_idem (s : String) : pyLower (pyLower s) = pyLower s := by
  apply String.ext
  show (s.data.map Char.toLower).map Char.toLower = s.data.map Char.toLower
  rw [List.map_map]
  exact List.map_congr_left (fun c _ => toLower_toLower c)

theorem pyLower_eq_empty_iff (s : String) : pyLower s = "" ↔ s = "" := by
  rw [string_eq_iff_data, string_eq_iff_data]
  show s.data.map Char.toLower = [] ↔ s.data = []
  simp

/-! ### `QuestionSerializer.validate_keywords` (src/apps/exams/serializers.py) -/

/-- `validate_keywords`: on a list input, returns
`[kw.strip().lower() for kw in value if kw.strip()]`
(a non-list input raises `ValidationError` before this comprehension;
only the list branch is embedded). -/
def validate_keywords (value : List String) : List String :=
  (value.filter (fun kw => pyStrip kw != "")).map (fun kw => pyLower (pyStrip kw))

/-- The spec's description of keyword normalization: entries trimmed and
lower-cased, with empty entries removed, in order. -/
def specNormalizeKeywords (value : List String) : List String :=
  (value.map (fun kw => pyLower (pyStrip kw))).filter (fun kw => kw != "")

theorem validate_keywords_eq_spec (value : List String) :
    validate_keywords value = specNormalizeKeywords value := by
  unfold validate_keywords specNormalizeKeywords
  rw [List.filter_map]
  congr 1
  apply List.filter_congr
  intro kw _
  show (pyStrip kw != "") = ((pyLower (pyStrip kw)) != "")
  by_cases h : pyStrip kw = ""
  · rw [h]
    have : pyLower "" = "" := rfl
    rw [this]
  · have h2 : pyLower (pyStrip kw) ≠ "" := fun he => h ((pyLower_eq_empty_iff _).mp he)
    have b1 : (pyStrip kw != "") = true := by simpa using h
    have b2 : ((pyLower (pyStrip kw)) != "") = true := by simpa using h2
    rw [b1, b2]

theorem validate_keywords_fixed (l : List String)
    (h : ∀ x ∈ l, pyStrip x = x ∧ pyLower x = x ∧ x ≠ "") :
    validate_keywords l = l := by
  induction l with
  | nil => rfl
  | cons a l ih =>
    obtain ⟨hs, hl, hne⟩ := h a (List.mem_cons_self a l)
    unfold validate_keywords
    rw [List.filter_cons, if_pos (by simp [hs, hne])]
    rw [List.map_cons]
    have htail := ih (fun x hx => h x (List.mem_cons_of_mem a hx))
    unfold validate_keywords at htail
    rw [htail, hs, hl]

theorem mem_validate_keywords_normalized (value : List String) :
    ∀ x ∈ validate_keywords value, pyStrip x = x ∧ pyLower x = x ∧ x ≠ "" := by
  intro x hx
  unfold validate_keywords at hx
  rw [List.mem_map] at hx
  obtain ⟨kw, hkw, hx⟩ := hx
  rw [List.mem_filter] at hkw
  have hne : pyStrip kw ≠ "" := by
    have := hkw.2
    simpa using this
  subst hx
  refine ⟨?_, pyLower_idem _, ?_⟩
  · rw [pyStrip_pyLower, pyStrip_idem]
  · intro he
    exact hne ((pyLower_eq_empty_iff _).mp he)

/-- C9: `validate_keywords` maps every list of strings to its entries trimmed
and lower-cased with empty entries removed, in order (the spec's normalizer);
the sample list `["  Polymorphism ", "OBJECTS", ""]` normalizes to
`["polymorphism", "objects"]`; and the normalization is idempotent. -/
theorem c9_validate_keywords_normalizes_and_is_idempotent :
    (∀ value : List String, validate_keywords value = specNormalizeKeywords value) ∧
    validate_keywords ["  Polymorphism ", "OBJECTS", ""] = ["polymorphism", "objects"] ∧
    (∀ value : List String,
      validate_keywords (validate_keywords value) = validate_keywords value) := by
  refine ⟨validate_keywords_eq_spec, ?_, ?_⟩
  · rfl
  · intro value
    exact validate_keywords_fixed _ (mem_validate_keywords_normalized value)

/-! ### Data model (src/apps/exams/models.py, src/apps/submissions/models.py) -/

/-- `Question`: the fields read by the grading engine. `marks` is a
`PositiveIntegerField(validators=[MinValueValidator(1)])`, hence a natural
number. -/
structure Question where
  question_text : String
  expected_answer : String
  keywords : List String
  marks : ℕ
deriving DecidableEq

/-- `Answer`: the fields read and written by the grading engine.
`marks_obtained` and `marks_allocated` are `DecimalField(decimal_places=2)`. -/
structure Answer where
  answer_text : String
  marks_obtained : ℚ
  marks_allocated : ℚ
  feedback : String
  question : Question
deriving DecidableEq

/-- `Submission`: the fields read and written by the grading engine and
the analysis services. -/
structure Submission where
  exam_title : String
  answers : List Answer
  total_marks : ℚ
  obtained_marks : ℚ
  percentage : ℚ
  is_graded : Bool
deriving DecidableEq

/-- `Submission.calculate_percentage` (src/apps/submissions/models.py:55-60):
`(obtained_marks / total_marks) * 100` when `total_marks > 0`, else `0`. -/
def Submission.calculate_percentage (s : Submission) : ℚ :=
  if 0 < s.total_marks then s.obtained_marks / s.total_marks * 100 else 0

/-- The percentage value actually stored by `submission.save()`: the
`percentage` column is a `DecimalField(decimal_places=2)`, so the assigned
value is quantized to two decimal places (half-even) on save. -/
def storedPercentage (s : Submission) : ℚ := round2 s.calculate_percentage

/-- `BaseGradingService.calculate_marks_percentage`
(src/apps/grading/services/base.py:34-38). -/
def calculate_marks_percentage (obtained total : ℚ) : ℚ :=
  if total = 0 then 0 else round2 (obtained / total * 100)

/-! ### spaCy oracle

Opaque spaCy operations of `SpacyGradingService`, as pure functions of the
underlying text: the loaded `en_core_web_md` model is immutable shared state,
so each operation is deterministic in its text arguments. -/

/-- * `sim a b` — `nlp(a).similarity(nlp(b))` (vector cosine similarity);
* `lemmaFallback u kw` — whether some token of `nlp(u)` satisfies
  `token.lemma_ == nlp(kw)[0].lemma_ or kw in token.text`
  (the fallback loop of `_calculate_keyword_similarity`, lines 144-150);
* `conceptList t` — root lemmas of the noun chunks of `nlp(t)`, in order
  (`_calculate_completeness` inserts them into a Python `set`, modelled
  below by `List.dedup`);
* `tokenCount t` — `len(nlp(t))`;
* `extractKeywords t` — `_extract_keywords_nlp(nlp(t))` (named entities plus
  lemmatized nouns/proper nouns/verbs, deduplicated, capped at 8). -/
structure SpacyOracle where
  sim : String → String → ℚ
  lemmaFallback : String → String → Bool
  conceptList : String → List String
  tokenCount : String → ℕ
  extractKeywords : String → List String

/-! ### `SpacyGradingService` scorers
(src/apps/grading/services/keyword_grader.py) -/

/-- One iteration of the keyword loop of `_calculate_keyword_similarity`
(lines 133-150): the increments to `(matched_keywords, total_similarity)`
contributed by one keyword. -/
def keywordStep (o : SpacyOracle) (userText kw : String) : ℕ × ℚ :=
  if 0.6 ≤ o.sim userText kw then (1, o.sim userText kw)
  else if o.lemmaFallback userText kw then (1, 0.8)
  else (0, 0)

/-- The accumulation loop of `_calculate_keyword_similarity`:
returns the final `(matched_keywords, total_similarity)`. -/
def keywordLoop (o : SpacyOracle) (userText : String) : List String → ℕ × ℚ
  | [] => (0, 0)
  | kw :: rest =>
    let step := keywordStep o userText kw
    let acc := keywordLoop o userText rest
    (step.1 + acc.1, step.2 + acc.2)

/-- `_calculate_keyword_similarity` (lines 124-156). Note the source divides
`total_similarity` by `len(keywords)`, not by `matched_keywords`. -/
def calculate_keyword_similarity (o : SpacyOracle) (userText : String)
    (keywords : List String) : ℚ :=
  if keywords = [] then 0.7
  else
    let acc := keywordLoop o userText keywords
    let match_rate : ℚ := (acc.1 : ℚ) / (keywords.length : ℚ)
    let avg_similarity : ℚ := if 0 < acc.1 then acc.2 / (keywords.length : ℚ) else 0
    (match_rate + avg_similarity) / 2

/-- `_calculate_content_similarity` (lines 158-167): whole-document
similarity clamped into [0,1] by `max(0, min(1, similarity))`. -/
def calculate_content_similarity (o : SpacyOracle) (userText expectedText : String) : ℚ :=
  max 0 (min 1 (o.sim userText expectedText))

/-- `_calculate_completeness` (lines 169-201). -/
def calculate_completeness (o : SpacyOracle) (userText expectedText : String) : ℚ :=
  let expected_concepts := (o.conceptList expectedText).dedup
  let user_concepts := (o.conceptList userText).dedup
  if expected_concepts = [] then 0.7
  else
    let covered_concepts :=
      (expected_concepts.filter
        (fun ec => user_concepts.any (fun uc => decide (0.6 ≤ o.sim ec uc)))).length
    let coverage : ℚ := (covered_concepts : ℚ) / (expected_concepts.length : ℚ)
    let length_ratio : ℚ :=
      (o.tokenCount userText : ℚ) / ((max (o.tokenCount expectedText) 1 : ℕ) : ℚ)
    let length_score : ℚ := if 0.5 ≤ length_ratio ∧ length_ratio ≤ 2 then 1 else 0.7
    (coverage + length_score) / 2

/-- `_generate_feedback` (lines 203-254). -/
def generate_feedback (o : SpacyOracle) (keyword_score content_score completeness_score : ℚ)
    (keywords : List String) (userText : String) : String :=
  let overall_score := (keyword_score + content_score + completeness_score) / 3
  let p1 : List String :=
    if 0.8 ≤ overall_score then ["Excellent answer!"]
    else if 0.6 ≤ overall_score then ["Good answer with room for improvement."]
    else ["Answer needs more development."]
  let p2 : List String :=
    if 0.7 ≤ keyword_score then ["You covered the key concepts well."]
    else if 0.5 ≤ keyword_score then ["You addressed some key concepts but missed others."]
    else
      ["Important concepts are missing from your answer."] ++
      (if keywords ≠ [] then
        (let missing := (keywords.take 3).filter
          (fun kw => decide (o.sim userText kw < 0.6))
        if missing ≠ [] then
          ["Consider including: " ++ String.intercalate ", " missing ++ "."]
        else [])
      else [])
  let p3 : List String :=
    if 0.7 ≤ content_score then ["Your answer aligns well with the expected response."]
    else if content_score < 0.5 then ["Your answer differs significantly from the expected response."]
    else []
  let p4 : List String :=
    if 0.7 ≤ completeness_score then ["Answer is well-detailed and complete."]
    else if completeness_score < 0.5 then ["Answer lacks sufficient detail and completeness."]
    else []
  String.intercalate " " (p1 ++ p2 ++ p3 ++ p4)

/-- The per-answer result dictionary returned by `grade_answer`. -/
structure AnswerResult where
  marks_obtained : ℚ
  marks_allocated : ℚ
  keyword_similarity : ℚ
  content_similarity : ℚ
  completeness_score : ℚ
  total_score : ℚ
  feedback : String
deriving DecidableEq

/-- `SpacyGradingService.grade_answer` (lines 57-101). The user and expected
texts are pre-processed by `.lower().strip()` before being handed to spaCy. -/
def grade_answer (o : SpacyOracle) (answer : Answer) (question : Question) : AnswerResult :=
  let userText := pyStrip (pyLower answer.answer_text)
  let expectedText := pyStrip (pyLower question.expected_answer)
  let keywords :=
    if question.keywords = [] then o.extractKeywords expectedText else question.keywords
  let keyword_score := calculate_keyword_similarity o userText keywords
  let content_score := calculate_content_similarity o userText expectedText
  let completeness_score := calculate_completeness o userText expectedText
  let total_score := keyword_score * 0.4 + content_score * 0.4 + completeness_score * 0.2
  let marks_obtained := total_score * (question.marks : ℚ)
  { marks_obtained := round2 marks_obtained
    marks_allocated := (question.marks : ℚ)
    keyword_similarity := round2 (keyword_score * 100)
    content_similarity := round2 (content_score * 100)
    completeness_score := round2 (completeness_score * 100)
    total_score := round2 (total_score * 100)
    feedback := generate_feedback o keyword_score content_score completeness_score
      keywords userText }

/-- The submission-level result dictionary returned by `grade_submission`. -/
structure SubmissionResult where
  total_obtained : ℚ
  total_marks : ℚ
  percentage : ℚ
  answer_results : List AnswerResult
deriving DecidableEq

/-- The per-answer loop of `grade_submission` (lines 35-43), with the grading
of one answer allowed to fail (a scoring resource raising). Each successful
iteration writes `marks_obtained` and `feedback` onto the answer and saves it
(`answer.save()`) before the next answer is attempted; an exception aborts
the loop, leaving the current and remaining answers untouched. Returns the
answer rows as committed, the accumulated total, the per-answer results, and
the raised exception message, if any. -/
def gradeAnswersLoop (g : Answer → Question → Except String AnswerResult) :
    List Answer → List Answer × ℚ × List AnswerResult × Option String
  | [] => ([], 0, [], none)
  | a :: rest =>
    match g a a.question with
    | .error e => (a :: rest, 0, [], some e)
    | .ok r =>
      let a2 := { a with marks_obtained := r.marks_obtained, feedback := r.feedback }
      let acc := gradeAnswersLoop g rest
      (a2 :: acc.1, r.marks_obtained + acc.2.1, r :: acc.2.2.1, acc.2.2.2)

/-- `SpacyGradingService.grade_submission` (lines 29-55), as a transition on
the database row state, with a fallible per-answer grader `g`. On success the
submission row is updated (`obtained_marks`, then `percentage` via
`calculate_percentage`, quantized by the `DecimalField` on save) and the
result dictionary is returned; the in-memory dictionary carries the
unquantized percentage. On failure the loop's per-answer saves have already
been issued and the exception propagates. -/
def grade_submission_db (g : Answer → Question → Except String AnswerResult)
    (s : Submission) : Submission × Except String SubmissionResult :=
  let acc := gradeAnswersLoop g s.answers
  match acc.2.2.2 with
  | some e => ({ s with answers := acc.1 }, .error e)
  | none =>
    let s2 := { s with answers := acc.1, obtained_marks := acc.2.1 }
    let s3 := { s2 with percentage := storedPercentage s2 }
    (s3, .ok { total_obtained := acc.2.1
               total_marks := s.total_marks
               percentage := s2.calculate_percentage
               answer_results := acc.2.2.1 })

/-- `grade_submission` with the pure spaCy engine (no resource failure):
`g` is `grade_answer` itself. -/
def grade_submission (o : SpacyOracle) (s : Submission) : Submission × SubmissionResult :=
  match grade_submission_db (fun a q => .ok (grade_answer o a q)) s with
  | (s2, .ok r) => (s2, r)
  | (s2, .error _) => (s2, { total_obtained := 0, total_marks := 0, percentage := 0,
                             answer_results := [] })

/-- `SubmissionViewSet.submit_exam`, grading phase
(src/apps/submissions/views.py:134-147). The method is decorated with
`@transaction.atomic`; the `try`/`except` around grading catches any grading
exception and returns normally, so the transaction commits whatever
`answer.save()` calls the aborted loop already issued. On success the
submission is marked graded. Returns the committed database state and
whether grading succeeded. -/
def submit_exam_grading (g : Answer → Question → Except String AnswerResult)
    (s : Submission) : Submission × Bool :=
  match grade_submission_db g s with
  | (s2, .error _) => (s2, false)
  | (s2, .ok _) => ({ s2 with is_graded := true }, true)

/-! ### Bounds of the sub-scores -/

theorem keywordStep_fst_le_one (o : SpacyOracle) (u kw : String) :
    (keywordStep o u kw).1 ≤ 1 := by
  unfold keywordStep
  split
  · exact le_refl 1
  · split
    · exact le_refl 1
    · exact Nat.zero_le 1

theorem keywordStep_snd_nonneg (o : SpacyOracle) (u kw : String) :
    0 ≤ (keywordStep o u kw).2 := by
  unfold keywordStep
  split
  · rename_i h; dsimp only; linarith [h]
  · split
    · norm_num
    · norm_num

theorem keywordStep_snd_le_fst (o : SpacyOracle) (u kw : String)
    (hsim : o.sim u kw ≤ 1) : (keywordStep o u kw).2 ≤ ((keywordStep o u kw).1 : ℚ) := by
  unfold keywordStep
  split
  · dsimp only; exact_mod_cast hsim
  · split
    · norm_num
    · norm_num

theorem keywordLoop_fst_le_length (o : SpacyOracle) (u : String) (l : List String) :
    (keywordLoop o u l).1 ≤ l.length := by
  induction l with
  | nil => simp [keywordLoop]
  | cons kw rest ih =>
    simp only [keywordLoop, List.length_cons]
    have := keywordStep_fst_le_one o u kw
    omega

theorem keywordLoop_snd_nonneg (o : SpacyOracle) (u : String) (l : List String) :
    0 ≤ (keywordLoop o u l).2 := by
  induction l with
  | nil => simp [keywordLoop]
  | cons kw rest ih =>
    simp only [keywordLoop]
    have := keywordStep_snd_nonneg o u kw
    linarith

theorem keywordLoop_snd_le_fst (o : SpacyOracle) (u : String) (l : List String)
    (hsim : ∀ x y, o.sim x y ≤ 1) :
    (keywordLoop o u l).2 ≤ ((keywordLoop o u l).1 : ℚ) := by
  induction l with
  | nil => simp [keywordLoop]
  | cons kw rest ih =>
    simp only [keywordLoop]
    have h1 := keywordStep_snd_le_fst o u kw (hsim u kw)
    push_cast
    push_cast at ih
    linarith

theorem calculate_keyword_similarity_bounds (o : SpacyOracle) (u : String)
    (keywords : List String) (hsim : ∀ x y, o.sim x y ≤ 1) :
    0 ≤ calculate_keyword_similarity o u keywords ∧
    calculate_keyword_similarity o u keywords ≤ 1 := by
  unfold calculate_keyword_similarity
  by_cases hk : keywords = []
  · rw [if_pos hk]; norm_num
  · rw [if_neg hk]
    have hn : 0 < (keywords.length : ℚ) := by
      have := List.length_pos.mpr hk
      exact_mod_cast this
    have hm0 : (0:ℚ) ≤ ((keywordLoop o u keywords).1 : ℚ) := by positivity
    have hm1 : ((keywordLoop o u keywords).1 : ℚ) ≤ (keywords.length : ℚ) := by
      exact_mod_cast keywordLoop_fst_le_length o u keywords
    have ht0 := keywordLoop_snd_nonneg o u keywords
    have ht1 : (keywordLoop o u keywords).2 ≤ (keywords.length : ℚ) :=
      le_trans (keywordLoop_snd_le_fst o u keywords hsim) hm1
    have hmr0 : 0 ≤ ((keywordLoop o u keywords).1 : ℚ) / (keywords.length : ℚ) :=
      div_nonneg hm0 (le_of_lt hn)
    have hmr1 : ((keywordLoop o u keywords).1 : ℚ) / (keywords.length : ℚ) ≤ 1 :=
      (div_le_one hn).mpr hm1
    constructor
    · dsimp only
      split
      · have : 0 ≤ (keywordLoop o u keywords).2 / (keywords.length : ℚ) :=
          div_nonneg ht0 (le_of_lt hn)
        linarith
      · linarith
    · dsimp only
      split
      · have : (keywordLoop o u keywords).2 / (keywords.length : ℚ) ≤ 1 :=
          (div_le_one hn).mpr ht1
        linarith
      · linarith

theorem calculate_content_similarity_bounds (o : SpacyOracle) (u e : String) :
    0 ≤ calculate_content_similarity o u e ∧ calculate_content_similarity o u e ≤ 1 := by
  unfold calculate_content_similarity
  constructor
  · exact le_max_left 0 _
  · exact max_le (by norm_num) (min_le_left 1 _)

theorem calculate_completeness_bounds (o : SpacyOracle) (u e : String) :
    0 ≤ calculate_completeness o u e ∧ calculate_completeness o u e ≤ 1 := by
  unfold calculate_completeness
  by_cases hc : (o.conceptList e).dedup = []
  · rw [if_pos hc]; norm_num
  · rw [if_neg hc]
    dsimp only
    have hn : 0 < ((o.conceptList e).dedup.length : ℚ) := by
      have := List.length_pos.mpr hc
      exact_mod_cast this
    set cov := ((o.conceptList e).dedup.filter
        (fun ec => (o.conceptList u).dedup.any
          (fun uc => decide (0.6 ≤ o.sim ec uc)))).length with hcov
    have hfle : cov ≤ (o.conceptList e).dedup.length := by
      rw [hcov]; exact List.length_filter_le _ _
    have h0 : (0:ℚ) ≤ (cov : ℚ) / ((o.conceptList e).dedup.length : ℚ) := by positivity
    have h1 : (cov : ℚ) / ((o.conceptList e).dedup.length : ℚ) ≤ 1 :=
      (div_le_one hn).mpr (by exact_mod_cast hfle)
    constructor
    · split <;> linarith
    · split <;> linarith

theorem grade_answer_marks_obtained_eq (o : SpacyOracle) (a : Answer) (q : Question) :
    (grade_answer o a q).marks_obtained =
      round2 ((calculate_keyword_similarity o (pyStrip (pyLower a.answer_text))
          (if q.keywords = [] then
            o.extractKeywords (pyStrip (pyLower q.expected_answer))
          else q.keywords) * 0.4 +
        calculate_content_similarity o (pyStrip (pyLower a.answer_text))
          (pyStrip (pyLower q.expected_answer)) * 0.4 +
        calculate_completeness o (pyStrip (pyLower a.answer_text))
          (pyStrip (pyLower q.expected_answer)) * 0.2) * (q.marks : ℚ)) := rfl

theorem grade_answer_marks_bounds (o : SpacyOracle) (a : Answer) (q : Question)
    (hsim : ∀ x y, o.sim x y ≤ 1) :
    0 ≤ (grade_answer o a q).marks_obtained ∧
    (grade_answer o a q).marks_obtained ≤ (q.marks : ℚ) := by
  rw [grade_answer_marks_obtained_eq]
  obtain ⟨hk0, hk1⟩ := calculate_keyword_similarity_bounds o
    (pyStrip (pyLower a.answer_text))
    (if q.keywords = [] then o.extractKeywords (pyStrip (pyLower q.expected_answer))
      else q.keywords) hsim
  obtain ⟨hc0, hc1⟩ := calculate_content_similarity_bounds o
    (pyStrip (pyLower a.answer_text)) (pyStrip (pyLower q.expected_answer))
  obtain ⟨hp0, hp1⟩ := calculate_completeness_bounds o
    (pyStrip (pyLower a.answer_text)) (pyStrip (pyLower q.expected_answer))
  have hm0 : (0:ℚ) ≤ (q.marks : ℚ) := by positivity
  constructor
  · apply round2_nonneg
    nlinarith
  · have := round2_le_int ((calculate_keyword_similarity o (pyStrip (pyLower a.answer_text))
        (if q.keywords = [] then
          o.extractKeywords (pyStrip (pyLower q.expected_answer))
        else q.keywords) * 0.4 +
      calculate_content_similarity o (pyStrip (pyLower a.answer_text))
        (pyStrip (pyLower q.expected_answer)) * 0.4 +
      calculate_completeness o (pyStrip (pyLower a.answer_text))
        (pyStrip (pyLower q.expected_answer)) * 0.2) * (q.marks : ℚ)) (q.marks : ℤ)
      (by push_cast; nlinarith)
    calc round2 _ ≤ (((q.marks : ℤ) : ℚ)) := this
      _ = (q.marks : ℚ) := by push_cast; ring

/-! ### The per-answer loop on the success path -/

theorem gradeAnswersLoop_ok (f : Answer → Question → AnswerResult) (l : List Answer) :
    gradeAnswersLoop (fun a q => .ok (f a q)) l =
      (l.map (fun a => { a with marks_obtained := (f a a.question).marks_obtained,
                                feedback := (f a a.question).feedback }),
       (l.map (fun a => (f a a.question).marks_obtained)).sum,
       l.map (fun a => f a a.question),
       none) := by
  induction l with
  | nil => rfl
  | cons a rest ih =>
    simp only [gradeAnswersLoop, ih, List.map_cons, List.sum_cons]

theorem grade_submission_answers (o : SpacyOracle) (s : Submission) :
    (grade_submission o s).1.answers =
      s.answers.map (fun a =>
        { a with marks_obtained := (grade_answer o a a.question).marks_obtained,
                 feedback := (grade_answer o a a.question).feedback }) := by
  simp only [grade_submission, grade_submission_db, gradeAnswersLoop_ok]

/-- C1: every answer graded by the engine receives
`0 ≤ marks_obtained ≤ marks_allocated`: `grade_answer` returns a mark in
`[0, question.marks]` whenever the similarity oracle is bounded by 1 (the
sub-scores are then all in `[0,1]`), and every answer updated by
`grade_submission` satisfies the bound against its frozen
`marks_allocated = question.marks`. -/
theorem c1_graded_marks_within_allocated (o : SpacyOracle) (a : Answer) (q : Question)
    (s : Submission) (hsim : ∀ x y, o.sim x y ≤ 1)
    (halloc : ∀ ans ∈ s.answers, ans.marks_allocated = (ans.question.marks : ℚ)) :
    (0 ≤ (grade_answer o a q).marks_obtained ∧
      (grade_answer o a q).marks_obtained ≤ (q.marks : ℚ)) ∧
    ∀ ans ∈ (grade_submission o s).1.answers,
      0 ≤ ans.marks_obtained ∧ ans.marks_obtained ≤ ans.marks_allocated := by
  refine ⟨grade_answer_marks_bounds o a q hsim, ?_⟩
  intro ans hans
  rw [grade_submission_answers] at hans
  rw [List.mem_map] at hans
  obtain ⟨a0, ha0, rfl⟩ := hans
  obtain ⟨hb0, hb1⟩ := grade_answer_marks_bounds o a0 a0.question hsim
  dsimp only
  refine ⟨hb0, ?_⟩
  rw [halloc a0 ha0]
  exact hb1

/-- Degenerate oracle for the C1 witness: similarity identically 0, no
fallback matches, no concepts, no extracted keywords. -/
def zeroOracle : SpacyOracle :=
  { sim := fun _ _ => 0
    lemmaFallback := fun _ _ => false
    conceptList := fun _ => []
    tokenCount := fun _ => 0
    extractKeywords := fun _ => [] }

def qW : Question := ⟨"What is OOP?", "Objects and classes.", [], 1⟩

def aW : Answer := ⟨"Objects.", 0, 1, "", qW⟩

def sW : Submission := ⟨"Exam 1", [aW], 1, 0, 0, false⟩

theorem c1_graded_marks_within_allocated_witness :
    (∀ x y, zeroOracle.sim x y ≤ 1) ∧
    (∀ ans ∈ sW.answers, ans.marks_allocated = (ans.question.marks : ℚ)) ∧
    ((0 ≤ (grade_answer zeroOracle aW qW).marks_obtained ∧
      (grade_answer zeroOracle aW qW).marks_obtained ≤ (qW.marks : ℚ)) ∧
    ∀ ans ∈ (grade_submission zeroOracle sW).1.answers,
      0 ≤ ans.marks_obtained ∧ ans.marks_obtained ≤ ans.marks_allocated) := by
  have h1 : ∀ x y, zeroOracle.sim x y ≤ 1 := by intro x y; norm_num [zeroOracle]
  have h2 : ∀ ans ∈ sW.answers, ans.marks_allocated = (ans.question.marks : ℚ) := by
    intro ans hans
    simp only [sW, List.mem_singleton] at hans
    subst hans
    norm_num [aW, qW]
  exact ⟨h1, h2, c1_graded_marks_within_allocated zeroOracle aW qW sW h1 h2⟩

/-- C2: under the semantic strategy, `grade_answer` computes
`marks_obtained = round((keyword_score*0.4 + clamp(raw_content_sim)*0.4
+ completeness*0.2) * question.marks, 2)`, where the content term is the
whole-document similarity clamped into [0,1] by `max(0, min(1, ·))`. -/
theorem c2_semantic_marks_formula (o : SpacyOracle) (a : Answer) (q : Question) :
    (grade_answer o a q).marks_obtained =
      round2 ((calculate_keyword_similarity o (pyStrip (pyLower a.answer_text))
          (if q.keywords = [] then
            o.extractKeywords (pyStrip (pyLower q.expected_answer))
          else q.keywords) * 0.4 +
        max 0 (min 1 (o.sim (pyStrip (pyLower a.answer_text))
          (pyStrip (pyLower q.expected_answer)))) * 0.4 +
        calculate_completeness o (pyStrip (pyLower a.answer_text))
          (pyStrip (pyLower q.expected_answer)) * 0.2) * (q.marks : ℚ)) := rfl

/-- C4: after grading, the stored percentage (a two-decimal `DecimalField`)
equals `round(obtained/total*100, 2)` when `total > 0`, equals `0` when
`total = 0`, always lies in `[0, 100]` given `0 ≤ obtained ≤ total`, and
agrees with `BaseGradingService.calculate_marks_percentage`. -/
theorem c4_percentage_law (s : Submission) (h0 : 0 ≤ s.obtained_marks)
    (h1 : s.obtained_marks ≤ s.total_marks) :
    (0 < s.total_marks →
      storedPercentage s = round2 (s.obtained_marks / s.total_marks * 100)) ∧
    (s.total_marks = 0 → storedPercentage s = 0) ∧
    (0 ≤ storedPercentage s ∧ storedPercentage s ≤ 100) ∧
    calculate_marks_percentage s.obtained_marks s.total_marks = storedPercentage s := by
  have htot : 0 ≤ s.total_marks := le_trans h0 h1
  by_cases hpos : 0 < s.total_marks
  · have heq : storedPercentage s = round2 (s.obtained_marks / s.total_marks * 100) := by
      unfold storedPercentage Submission.calculate_percentage
      rw [if_pos hpos]
    have hr0 : (0:ℚ) ≤ s.obtained_marks / s.total_marks * 100 := by positivity
    have hr1 : s.obtained_marks / s.total_marks * 100 ≤ 100 := by
      have : s.obtained_marks / s.total_marks ≤ 1 := (div_le_one hpos).mpr h1
      linarith
    refine ⟨fun _ => heq, fun hz => absurd hz (by linarith), ⟨?_, ?_⟩, ?_⟩
    · rw [heq]; exact round2_nonneg _ hr0
    · rw [heq]
      have := round2_le_int (s.obtained_marks / s.total_marks * 100) 100 (by push_cast; linarith)
      calc round2 (s.obtained_marks / s.total_marks * 100) ≤ ((100 : ℤ) : ℚ) := this
        _ = 100 := by norm_num
    · unfold calculate_marks_percentage
      rw [if_neg (by linarith), heq]
  · have hz : s.total_marks = 0 := le_antisymm (le_of_not_lt hpos) htot
    have heq : storedPercentage s = 0 := by
      unfold storedPercentage Submission.calculate_percentage
      rw [if_neg hpos]
      simpa using round2_intCast 0
    refine ⟨fun hp => absurd hp hpos, fun _ => heq, ⟨by rw [heq], by rw [heq]; norm_num⟩, ?_⟩
    unfold calculate_marks_percentage
    rw [if_pos hz, heq]

def sW4 : Submission := ⟨"Exam 2", [], 2, 1, 0, true⟩

theorem c4_percentage_law_witness :
    (0 ≤ sW4.obtained_marks ∧ sW4.obtained_marks ≤ sW4.total_marks) ∧
    ((0 < sW4.total_marks →
      storedPercentage sW4 = round2 (sW4.obtained_marks / sW4.total_marks * 100)) ∧
    (sW4.total_marks = 0 → storedPercentage sW4 = 0) ∧
    (0 ≤ storedPercentage sW4 ∧ storedPercentage sW4 ≤ 100) ∧
    calculate_marks_percentage sW4.obtained_marks sW4.total_marks = storedPercentage sW4) :=
  ⟨⟨by norm_num [sW4], by norm_num [sW4]⟩,
    c4_percentage_law sW4 (by norm_num [sW4]) (by norm_num [sW4])⟩

/-! ### C5: the coverage-score aggregation -/

theorem keywordLoop_eq_sums (o : SpacyOracle) (u : String) (l : List String) :
    keywordLoop o u l =
      ((l.map (fun kw => (keywordStep o u kw).1)).sum,
       (l.map (fun kw => (keywordStep o u kw).2)).sum) := by
  induction l with
  | nil => rfl
  | cons kw rest ih => simp [keywordLoop, ih]

/-- The claim's (and spec's) reading of the coverage score: the mean
similarity is taken over the MATCHED keywords. This is not what the source
computes. -/
def claimKeywordScore (o : SpacyOracle) (userText : String)
    (keywords : List String) : ℚ :=
  if keywords = [] then 0.7
  else
    let matched := (keywords.map (fun kw => (keywordStep o userText kw).1)).sum
    let total := (keywords.map (fun kw => (keywordStep o userText kw).2)).sum
    let match_rate : ℚ := (matched : ℚ) / (keywords.length : ℚ)
    let mean_matched : ℚ := if 0 < matched then total / (matched : ℚ) else 0
    (match_rate + mean_matched) / 2

/-- The amended statement of the coverage score: the second averaged term is
`total_similarity / len(keywords)` — the accumulated matched similarity
divided by the TOTAL number of keywords (0 if nothing matched). -/
def amendedKeywordScore (o : SpacyOracle) (userText : String)
    (keywords : List String) : ℚ :=
  if keywords = [] then 0.7
  else
    let matched := (keywords.map (fun kw => (keywordStep o userText kw).1)).sum
    let total := (keywords.map (fun kw => (keywordStep o userText kw).2)).sum
    let match_rate : ℚ := (matched : ℚ) / (keywords.length : ℚ)
    let avg_similarity : ℚ := if 0 < matched then total / (keywords.length : ℚ) else 0
    (match_rate + avg_similarity) / 2

/-- Oracle refuting C5: keyword "alpha" matches with similarity 0.8, keyword
"beta" does not match at all. -/
def kwCexOracle : SpacyOracle :=
  { sim := fun _ kw => if kw = "alpha" then 0.8 else 0
    lemmaFallback := fun _ _ => false
    conceptList := fun _ => []
    tokenCount := fun _ => 0
    extractKeywords := fun _ => [] }

/-- C5 counterexample: with one of two keywords matched at similarity 0.8,
the source computes `(1/2 + 0.8/2)/2 = 0.45`, while the claim's
"mean similarity of the matched keywords" reading gives
`(1/2 + 0.8/1)/2 = 0.65`. -/
theorem c5_counterexample :
    calculate_keyword_similarity kwCexOracle "ans" ["alpha", "beta"] = 9/20 ∧
    claimKeywordScore kwCexOracle "ans" ["alpha", "beta"] = 13/20 ∧
    ((9 : ℚ)/20 ≠ 13/20) := by
  have hba : ¬(("beta" : String) = "alpha") := by decide
  refine ⟨?_, ?_, by norm_num⟩
  · norm_num [calculate_keyword_similarity, keywordLoop, keywordStep, kwCexOracle, hba]
    decide
  · norm_num [claimKeywordScore, keywordStep, kwCexOracle, hba]
    decide

/-- C5 amended: for a non-empty keyword list the coverage score is the
average of the match rate and `total_similarity / len(keywords)` (the
accumulated matched similarity divided by the total keyword count, 0 when
nothing matched), with matching decided by similarity ≥ 0.6 or the
lemma/substring fallback; an empty keyword list yields the neutral 0.7. -/
theorem c5_keyword_score_amended (o : SpacyOracle) (u : String) (keywords : List String) :
    calculate_keyword_similarity o u keywords = amendedKeywordScore o u keywords := by
  unfold calculate_keyword_similarity amendedKeywordScore
  by_cases hk : keywords = []
  · rw [if_pos hk, if_pos hk]
  · rw [if_neg hk, if_neg hk, keywordLoop_eq_sums]

/-! ### C3: failure mid-way through `grade_submission` -/

def q3 : Question := ⟨"Q1", "Expected answer.", [], 10⟩

def a3first : Answer := ⟨"first answer", 0, 10, "", q3⟩

def a3second : Answer := ⟨"second answer", 0, 10, "", q3⟩

def s3 : Submission := ⟨"Exam 3", [a3first, a3second], 20, 0, 0, false⟩

def r3 : AnswerResult := ⟨5, 10, 50, 50, 50, 50, "Good answer with room for improvement."⟩

/-- A grader that succeeds on the first answer and raises on the second
(e.g. a spaCy resource failure occurring mid-loop). -/
def g3 : Answer → Question → Except String AnswerResult := fun a _ =>
  if a.answer_text = "first answer" then .ok r3
  else .error "spaCy model not found."

/-- C3 (code bug evidence): when grading the second of two answers raises,
`submit_exam`'s grading phase reports failure and leaves the submission
totals and `is_graded` untouched — but the first answer's saved
`marks_obtained`/`feedback` (5, non-empty feedback) remain committed,
because each answer is saved as it is graded and the view catches the
exception inside its `transaction.atomic` block. The claim's "no answer of
the submission has marks_obtained or feedback changed" is violated. -/
theorem c3_partial_marks_committed_on_failure :
    (submit_exam_grading g3 s3).2 = false ∧
    (s3.answers.map Answer.marks_obtained = [0, 0] ∧
      s3.answers.map Answer.feedback = ["", ""]) ∧
    (submit_exam_grading g3 s3).1.answers.map Answer.marks_obtained = [5, 0] ∧
    (submit_exam_grading g3 s3).1.answers.map Answer.feedback =
      ["Good answer with room for improvement.", ""] ∧
    (submit_exam_grading g3 s3).1.obtained_marks = 0 ∧
    (submit_exam_grading g3 s3).1.total_marks = 20 ∧
    (submit_exam_grading g3 s3).1.percentage = 0 ∧
    (submit_exam_grading g3 s3).1.is_graded = false := by
  refine ⟨rfl, ⟨rfl, rfl⟩, rfl, rfl, rfl, rfl, rfl, rfl⟩

/-! ### C6: the factory's strategy selection -/

/-- The two aggregation strategies named by the spec. -/
inductive GradingStrategy where
  | lexical
  | semantic
deriving DecidableEq

/-- The strategy of the grading service returned by
`GradingServiceFactory.get_service` (src/apps/grading/services/__init__.py:16-19).

The factory body is `return SpacyGradingService()`, unconditionally: it reads
no configuration, and `SpacyGradingService` aggregates with the semantic
0.4/0.4/0.2 weights (`grade_answer` above). No class in the repository
implements a lexical coverage/density scorer. -/
def factoryServiceStrategy : GradingStrategy := GradingStrategy.semantic

/-- Modelled from the spec: the lexical aggregation formula
`marks = coverage × 0.7 × question.marks + density × 0.3 × question.marks`.
No code under src/ computes this; the definition exists only to state what
the claim asserts the engine offers. -/
def lexicalMarksSpec (coverage density marks : ℚ) : ℚ :=
  coverage * 0.7 * marks + density * 0.3 * marks

/-- C6 counterexample: the grading service the factory returns is the
semantic one, not the lexical one — there is no configuration under which
`get_service` yields a lexical scorer, since its body ignores settings
entirely. -/
theorem c6_counterexample : factoryServiceStrategy ≠ GradingStrategy.lexical := by
  decide

/-- C6 amended: the factory unconditionally selects the semantic strategy
(no lexical strategy is offered by the code); the 0.7/0.3 lexical formula
exists only in the spec, under which the sample scenario (marks=10,
coverage=1.0, density=0.85) would indeed give 9.55. -/
theorem c6_factory_semantic_only :
    factoryServiceStrategy = GradingStrategy.semantic ∧
    lexicalMarksSpec 1 0.85 10 = 9.55 := by
  refine ⟨rfl, ?_⟩
  norm_num [lexicalMarksSpec]

/-! ### Section extraction from the analysis response
(src/apps/grading/services/gemini_analyzer.py:151-177) -/

/-- First index at which `pat` occurs as a prefix of a suffix of the list
(the position found by `re.search` for a literal pattern). -/
def findPrefixIdx (pat : List Char) : List Char → Option ℕ
  | [] => if pat.isPrefixOf ([] : List Char) then some 0 else none
  | c :: rest =>
    if pat.isPrefixOf (c :: rest) then some 0
    else (findPrefixIdx pat rest).map (· + 1)

/-- Whether `\d+\.` matches at this position: a non-empty maximal digit run
followed by a literal dot. -/
def digitsDot (s : List Char) : Bool :=
  !(s.takeWhile Char.isDigit).isEmpty &&
    ((s.drop (s.takeWhile Char.isDigit).length).head? == some '.')

/-- Whether the section lookahead `(?=\n\n|\d+\.|$)` succeeds at a non-end
position (the end-of-input alternative is handled by the caller). -/
def sectionStop (s : List Char) : Bool :=
  ['\n', '\n'].isPrefixOf s || digitsDot s

/-- The lazy group `(.*?)` of the section pattern: take characters until the
earliest position where the lookahead (`\n\n`, `\d+\.`, or end of input)
holds. -/
def takeUntilSectionStop : List Char → List Char
  | [] => []
  | c :: rest =>
    if sectionStop (c :: rest) then []
    else c :: takeUntilSectionStop rest

/-- `_extract_section`: `re.search(rf'{section_name}:(.*?)(?=\n\n|\d+\.|$)',
text, re.DOTALL | re.IGNORECASE)`, returning the stripped first group on a
match and the literal fallback `"Analysis not available"` otherwise. The
first match sits at the first case-insensitive occurrence of
`section_name + ":"`; its lazy group runs to the earliest lookahead
position. -/
def extract_section (text section_name : String) : String :=
  match findPrefixIdx (pyLower (section_name ++ ":")).data (pyLower text).data with
  | none => "Analysis not available"
  | some i =>
    pyStrip ⟨takeUntilSectionStop
      (text.data.drop (i + (pyLower (section_name ++ ":")).data.length))⟩

/-- Whether the bullet leader `(?:[\d]+\.|[-•*])` matches at this position,
and the length it consumes. -/
def bulletLeader (s : List Char) : Option ℕ :=
  if digitsDot s then some ((s.takeWhile Char.isDigit).length + 1)
  else
    match s with
    | [] => none
    | c :: _ => if c = '-' || c = '•' || c = '*' then some 1 else none

/-- Whether the bullet lookahead `(?=(?:[\d]+\.|[-•*]|\n\n|$))` succeeds. -/
def bulletStop (s : List Char) : Bool :=
  (bulletLeader s).isSome || ['\n', '\n'].isPrefixOf s || s.isEmpty

/-- The lazy group `(.+?)` of the bullet pattern: at least one character,
extended until the earliest position where the bullet lookahead holds
(which always happens by end of input), together with the remaining input.
`none` only on empty input. -/
def lazyGroup : List Char → Option (List Char × List Char)
  | [] => none
  | c :: rest =>
    if bulletStop rest then some ([c], rest)
    else (lazyGroup rest).map (fun gr => (c :: gr.1, gr.2))

/-- One attempted match of the bullet pattern
`(?:[\d]+\.|[-•*])\s*(.+?)(?=(?:[\d]+\.|[-•*]|\n\n|$))` at this position:
leader, then greedy whitespace, then the lazy group. When no character
remains after the whitespace, the regex engine backtracks `\s*` by one
character, which then forms the group with the end-of-input lookahead. -/
def tryBulletMatch (s : List Char) : Option (List Char × List Char) :=
  match bulletLeader s with
  | none => none
  | some k =>
    match lazyGroup ((s.drop k).drop ((s.drop k).takeWhile pyIsSpace).length) with
    | some gr => some gr
    | none =>
      match ((s.drop k).takeWhile pyIsSpace).getLast? with
      | some w => some ([w], [])
      | none => none

theorem lazyGroup_some_lt (t : List Char) (gr : List Char × List Char)
    (h : lazyGroup t = some gr) : gr.2.length < t.length := by
  induction t generalizing gr with
  | nil => simp [lazyGroup] at h
  | cons c rest ih =>
    rw [lazyGroup] at h
    by_cases hstop : bulletStop rest = true
    · rw [if_pos hstop] at h
      injection h with h
      subst h
      simp
    · rw [if_neg hstop, Option.map_eq_some'] at h
      obtain ⟨gr', hrec, heq⟩ := h
      have hlt := ih gr' hrec
      subst heq
      simp only [List.length_cons]
      omega

theorem digitsDot_nil : digitsDot [] = false := rfl

theorem bulletLeader_pos (s : List Char) (k : ℕ) (h : bulletLeader s = some k) :
    1 ≤ k ∧ s ≠ [] := by
  cases s with
  | nil =>
    have hb : bulletLeader ([] : List Char) = none := rfl
    rw [hb] at h
    exact absurd h (by simp)
  | cons c rest =>
    refine ⟨?_, by simp⟩
    unfold bulletLeader at h
    by_cases hd : digitsDot (c :: rest) = true
    · rw [if_pos hd] at h
      injection h with h
      omega
    · rw [if_neg hd] at h
      dsimp only at h
      by_cases hc : (c = '-' || c = '•' || c = '*') = true
      · rw [if_pos hc] at h
        injection h with h
        omega
      · rw [if_neg hc] at h
        exact absurd h (by simp)

theorem tryBulletMatch_rem_lt (s : List Char) (gr : List Char × List Char)
    (h : tryBulletMatch s = some gr) : gr.2.length < s.length := by
  unfold tryBulletMatch at h
  cases hbl : bulletLeader s with
  | none => rw [hbl] at h; simp at h
  | some k =>
    rw [hbl] at h
    dsimp only at h
    obtain ⟨hk1, hsne⟩ := bulletLeader_pos s k hbl
    have hslen : 0 < s.length := List.length_pos.mpr hsne
    cases hlz : lazyGroup ((s.drop k).drop ((s.drop k).takeWhile pyIsSpace).length) with
    | some gr' =>
      rw [hlz] at h
      dsimp only at h
      injection h with h
      subst h
      have hlt := lazyGroup_some_lt _ gr' hlz
      have hd1 : ((s.drop k).drop ((s.drop k).takeWhile pyIsSpace).length).length
          ≤ (s.drop k).length := by
        rw [List.length_drop]
        omega
      have hd2 : (s.drop k).length = s.length - k := List.length_drop k s
      omega
    | none =>
      rw [hlz] at h
      dsimp only at h
      cases hws : ((s.drop k).takeWhile pyIsSpace).getLast? with
      | none => rw [hws] at h; simp at h
      | some w =>
        rw [hws] at h
        dsimp only at h
        injection h with h
        subst h
        simpa using hslen

/-- The `re.findall` scan of the bullet pattern, with explicit fuel: try a
match at the current position; on success continue after the match, else
advance one character. Every step consumes at least one character
(`tryBulletMatch_rem_lt`), so `s.length` fuel always suffices
(`findBulletsFuel_irrel` below shows the result does not depend on the fuel
bound). -/
def findBulletsFuel : ℕ → List Char → List (List Char)
  | 0, _ => []
  | _ + 1, [] => []
  | fuel + 1, c :: rest =>
    match tryBulletMatch (c :: rest) with
    | some gr => gr.1 :: findBulletsFuel fuel gr.2
    | none => findBulletsFuel fuel rest

theorem findBulletsFuel_irrel (f₁ : ℕ) :
    ∀ (s : List Char) (f₂ : ℕ), s.length ≤ f₁ → s.length ≤ f₂ →
      findBulletsFuel f₁ s = findBulletsFuel f₂ s := by
  induction f₁ with
  | zero =>
    intro s f₂ h₁ _
    have hs : s = [] := List.length_eq_zero.mp (Nat.le_zero.mp h₁)
    subst hs
    cases f₂ <;> rfl
  | succ f ih =>
    intro s f₂ h₁ h₂
    cases s with
    | nil => cases f₂ <;> rfl
    | cons c rest =>
      simp only [List.length_cons] at h₁ h₂
      obtain ⟨g, rfl⟩ : ∃ g, f₂ = g + 1 := by
        cases f₂ with
        | zero => omega
        | succ g => exact ⟨g, rfl⟩
      cases htm : tryBulletMatch (c :: rest) with
      | some gr =>
        have hlt := tryBulletMatch_rem_lt _ gr htm
        simp only [List.length_cons] at hlt
        simp only [findBulletsFuel, htm]
        rw [ih gr.2 g (by omega) (by omega)]
      | none =>
        simp only [findBulletsFuel, htm]
        exact ih rest g (by omega) (by omega)

/-- The bullet matches found by `re.findall` in `_extract_bullet_points`. -/
def findBullets (s : List Char) : List (List Char) := findBulletsFuel s.length s

/-- `_extract_bullet_points` (gemini_analyzer.py:163-177): split the section
on numbered/bulleted items, stripping each; fall back to the whole section
as a single item when no bullets are found and the section is non-empty. -/
def extract_bullet_points (text section_name : String) : List String :=
  let section_text := extract_section text section_name
  let points := findBullets section_text.data
  if points ≠ [] then points.map (fun p => pyStrip ⟨p⟩)
  else if section_text ≠ "" then [section_text]
  else []

/-! ### The analysis services
(src/apps/grading/services/gemini_analyzer.py,
src/apps/grading/services/mistral_analyzer.py)

The external generative-text call is modelled as an oracle
`ext : String → Except String String`: `.ok` carries the response text,
`.error` the message of the exception raised by the client call. Python's
float-to-string formatting inside the prompt f-strings is abstracted by an
oracle `fmt : ℚ → String`. -/

/-- The result dictionary of `GeminiAnalysisService.analyze_submission`:
either `{'error': ...}` or the parsed report. -/
inductive AnalysisOutcome where
  | failure (error_msg : String)
  | report (summary : String) (strengths : List String)
      (areas_for_improvement : List String) (suggestions : List String)
      (full_analysis : String)
deriving DecidableEq

/-- One per-answer block of the analysis prompt
(`_create_analysis_prompt`, answers enumerated from 1). -/
def answerBlock (fmt : ℚ → String) (idx : ℕ) (a : Answer) : String :=
  "\nQuestion " ++ toString idx ++ ": " ++ a.question.question_text ++
  "\nExpected Answer: " ++ a.question.expected_answer ++
  "\nStudent's Answer: " ++ a.answer_text ++
  "\nScore: " ++ fmt a.marks_obtained ++ "/" ++ fmt a.marks_allocated ++
  "\nInitial Feedback: " ++ a.feedback ++ "\n\n"

/-- The header of the analysis prompt (identical in both services). -/
def promptHeader (fmt : ℚ → String) (s : Submission) : String :=
  "\nYou are an educational assessment expert. Analyze this student's exam performance and provide constructive feedback.\n\nExam: " ++
  s.exam_title ++ "\nScore: " ++ fmt s.obtained_marks ++ "/" ++ fmt s.total_marks ++
  " (" ++ fmt s.percentage ++ "%)\n\nDetailed Answers:\n"

/-- The instruction tail of the Gemini prompt. -/
def promptTail : String :=
  "\nPlease provide:\n1. SUMMARY: A brief overall assessment (2-3 sentences)\n2. STRENGTHS: What the student did well (3-4 points)\n3. AREAS FOR IMPROVEMENT: What needs work (3-4 points)\n4. SUGGESTIONS: Specific actionable recommendations (3-4 points)\n\nKeep the feedback encouraging, constructive, and specific. Focus on learning outcomes.\n"

/-- The instruction tail of the Mistral prompt (two extra instructions). -/
def mistralPromptTail : String :=
  "\nPlease provide:\n1. SUMMARY: A brief overall assessment (2-3 sentences)\n2. STRENGTHS: What the student did well (3-4 points)\n3. AREAS FOR IMPROVEMENT: What needs work (3-4 points)\n4. SUGGESTIONS: Specific actionable recommendations (3-4 points)\n\nKeep the feedback encouraging, constructive, and specific. Focus on learning outcomes. Give the response in text format only not MARKDOWN\nalso do not make any of the texts bold using the *\n"

/-- `_prepare_submission_context` + `_create_analysis_prompt`
(gemini_analyzer.py:79-133). -/
def create_analysis_prompt (fmt : ℚ → String) (s : Submission) : String :=
  promptHeader fmt s ++
  String.join (List.mapIdx (fun i a => answerBlock fmt (i + 1) a) s.answers) ++
  promptTail

/-- The Mistral variant of the prompt (mistral_analyzer.py:86-141). -/
def mistral_create_analysis_prompt (fmt : ℚ → String) (s : Submission) : String :=
  promptHeader fmt s ++
  String.join (List.mapIdx (fun i a => answerBlock fmt (i + 1) a) s.answers) ++
  mistralPromptTail

/-- `GeminiAnalysisService.analyze_submission` (gemini_analyzer.py:44-77):
refuse ungraded submissions with an error result; otherwise call the
external service on the built prompt, parse its four sections on success,
and capture any raised exception as `{'error': 'AI analysis failed: ...'}`. -/
def gemini_analyze_submission (ext : String → Except String String)
    (fmt : ℚ → String) (s : Submission) : AnalysisOutcome :=
  if !s.is_graded then .failure "Submission must be graded first"
  else
    match ext (create_analysis_prompt fmt s) with
    | .error e => .failure ("AI analysis failed: " ++ e)
    | .ok analysis_text =>
      .report (extract_section analysis_text "SUMMARY")
        (extract_bullet_points analysis_text "STRENGTHS")
        (extract_bullet_points analysis_text "AREAS FOR IMPROVEMENT")
        (extract_bullet_points analysis_text "SUGGESTIONS")
        analysis_text

/-- `analyze_submission` as a transition on the database row state: the
method reads the submission and its answers but performs no `save()` and no
field assignment, so the committed grade state is returned untouched in
every case. -/
def gemini_analyze_db (ext : String → Except String String) (fmt : ℚ → String)
    (s : Submission) : Submission × AnalysisOutcome :=
  (s, gemini_analyze_submission ext fmt s)

/-- The result dictionary of `MistralAnalysisService.analyze_submission`:
either `{'error': ...}` or `{'full_analysis': ...}`. -/
inductive MistralOutcome where
  | failure (error_msg : String)
  | report (full_analysis : String)
deriving DecidableEq

/-- `MistralAnalysisService.analyze_submission` (mistral_analyzer.py:48-84). -/
def mistral_analyze_submission (ext : String → Except String String)
    (fmt : ℚ → String) (s : Submission) : MistralOutcome :=
  if !s.is_graded then .failure "Submission must be graded first"
  else
    match ext (mistral_create_analysis_prompt fmt s) with
    | .error e => .failure ("AI analysis failed: " ++ e)
    | .ok analysis_text => .report analysis_text

/-- C7: calling either analysis service on a submission with
`is_graded = false` returns the error result
`{error: "Submission must be graded first"}` — the guard precedes every
other step, so no exception can be raised. -/
theorem c7_ungraded_analysis_returns_error (ext₁ ext₂ : String → Except String String)
    (fmt₁ fmt₂ : ℚ → String) (s : Submission) (h : s.is_graded = false) :
    gemini_analyze_submission ext₁ fmt₁ s = .failure "Submission must be graded first" ∧
    mistral_analyze_submission ext₂ fmt₂ s = .failure "Submission must be graded first" := by
  constructor
  · unfold gemini_analyze_submission
    rw [h]
    rfl
  · unfold mistral_analyze_submission
    rw [h]
    rfl

theorem c7_ungraded_analysis_returns_error_witness :
    sW.is_graded = false ∧
    (gemini_analyze_submission (fun _ => .ok "SUMMARY: fine") (fun _ => "0") sW =
      .failure "Submission must be graded first" ∧
    mistral_analyze_submission (fun _ => .ok "SUMMARY: fine") (fun _ => "0") sW =
      .failure "Submission must be graded first") :=
  ⟨rfl, c7_ungraded_analysis_returns_error (fun _ => .ok "SUMMARY: fine")
    (fun _ => .ok "SUMMARY: fine") (fun _ => "0") (fun _ => "0") sW rfl⟩

/-- C8: for a graded submission, a failing external call is captured and
returned as the `error` field of the analysis result (never re-raised), and
`analyze_submission` leaves the committed grade state — every answer's
`marks_obtained` and `feedback`, and the submission's `obtained_marks`,
`percentage` and `is_graded` — unchanged in every case. -/
theorem c8_failure_captured_grade_state_unchanged
    (ext : String → Except String String) (fmt : ℚ → String) (s : Submission)
    (hg : s.is_graded = true) :
    (∀ e, ext (create_analysis_prompt fmt s) = .error e →
      gemini_analyze_submission ext fmt s = .failure ("AI analysis failed: " ++ e)) ∧
    ((gemini_analyze_db ext fmt s).1.answers.map Answer.marks_obtained =
        s.answers.map Answer.marks_obtained ∧
      (gemini_analyze_db ext fmt s).1.answers.map Answer.feedback =
        s.answers.map Answer.feedback ∧
      (gemini_analyze_db ext fmt s).1.obtained_marks = s.obtained_marks ∧
      (gemini_analyze_db ext fmt s).1.percentage = s.percentage ∧
      (gemini_analyze_db ext fmt s).1.is_graded = s.is_graded) := by
  refine ⟨?_, rfl, rfl, rfl, rfl, rfl⟩
  intro e he
  unfold gemini_analyze_submission
  rw [hg, he]
  rfl

def sG : Submission := ⟨"Exam 4", [], 10, 7, 70, true⟩

theorem c8_failure_captured_grade_state_unchanged_witness :
    sG.is_graded = true ∧
    ((fun _ => (.error "network down" : Except String String))
        (create_analysis_prompt (fun _ => "0") sG) = .error "network down") ∧
    gemini_analyze_submission (fun _ => .error "network down") (fun _ => "0") sG =
      .failure ("AI analysis failed: " ++ "network down") ∧
    (gemini_analyze_db (fun _ => .error "network down") (fun _ => "0") sG).1.is_graded =
      sG.is_graded :=
  ⟨rfl, rfl,
    (c8_failure_captured_grade_state_unchanged (fun _ => .error "network down")
      (fun _ => "0") sG rfl).1 "network down" rfl,
    (c8_failure_captured_grade_state_unchanged (fun _ => .error "network down")
      (fun _ => "0") sG rfl).2.2.2.2.2⟩

/-- C10: when the response text does not contain the requested section
header (`section_name + ":"`, case-insensitively), `_extract_section`
returns the literal placeholder `"Analysis not available"`, and
`_extract_bullet_points` returns it as a one-element list — never an empty
value, never an exception. -/
theorem c10_missing_header_yields_placeholder (text section_name : String)
    (h : findPrefixIdx (pyLower (section_name ++ ":")).data (pyLower text).data = none) :
    extract_section text section_name = "Analysis not available" ∧
    extract_bullet_points text section_name = ["Analysis not available"] := by
  have hs : extract_section text section_name = "Analysis not available" := by
    unfold extract_section
    rw [h]
  refine ⟨hs, ?_⟩
  unfold extract_bullet_points
  rw [hs]
  rfl

theorem c10_missing_header_yields_placeholder_witness :
    (findPrefixIdx (pyLower ("SUMMARY" ++ ":")).data
      (pyLower "no sections in this response").data = none) ∧
    extract_section "no sections in this response" "SUMMARY" = "Analysis not available" ∧
    extract_bullet_points "no sections in this response" "SUMMARY" =
      ["Analysis not available"] := by
  have h : findPrefixIdx (pyLower ("SUMMARY" ++ ":")).data
      (pyLower "no sections in this response").data = none := by decide
  have := c10_missing_header_yields_placeholder "no sections in this response" "SUMMARY" h
  exact ⟨h, this.1, this.2⟩

end Acad
